import Mathlib

/-!
# Terminal pattern renderer (`main.go`): embedding and properties

The program is one `main` function that prints a sequence of coloured
patterns.  Each pattern is a loop nest over integer indices; the embedding
below turns every loop body into a function of its loop indices.

Conventions of the embedding

* Go `int` is `Int`; `/` and `%` on `int` are truncated (`Int.tdiv`,
  `Int.tmod`), written `goDiv` and `goMod`.
* A `float64` is taken as the exact number it approximates: `float64(n)` is the
  cast of `n`, `0.8` is the rational `4/5`, arithmetic is exact, and `int(v)`
  truncates toward zero (`goInt`).  For the index ranges of this program the
  truncated results are the same as those of IEEE arithmetic (a product
  `row * 0.8` is a whole number only when `row` is a multiple of five, and
  there the rounded product is that whole number).
* `math.Sin` is not computed: it is a parameter `sin` of the definitions that
  call it, over any ordered field with a floor function.
* Indexing a slice out of range panics; a panic is `none`.
-/

namespace MPattern

/-! ## Go arithmetic -/

/-- Go `a / b` on `int`: quotient truncated toward zero. -/
def goDiv (a b : Int) : Int := Int.tdiv a b

/-- Go `a % b` on `int`: remainder with the sign of the dividend. -/
def goMod (a b : Int) : Int := Int.tmod a b

/-- Go `int(v)` for a floating value: truncation toward zero. -/
def goInt {α : Type} [LinearOrderedField α] [FloorRing α] (v : α) : Int :=
  if 0 ≤ v then ⌊v⌋ else ⌈v⌉

/-! ## Palette (`main.go` lines 14-24) -/

/-- The slice `colors`. -/
def colors : List String :=
  [ "\x1b[38;5;196m", "\x1b[38;5;202m", "\x1b[38;5;208m", "\x1b[38;5;214m",
    "\x1b[38;5;220m", "\x1b[38;5;226m", "\x1b[38;5;190m", "\x1b[38;5;154m" ]

/-- The string `reset`. -/
def reset : String := "\x1b[0m"

/-- The value of `len(colors)` as a Go `int`. -/
def lenColors : Int := (colors.length : Int)

/-- The expression `colors[i]`: `none` is the index-out-of-range panic. -/
def colorAt (i : Int) : Option String :=
  if 0 ≤ i then colors[i.toNat]? else none

/-- One argument of `fmt.Print`: either a literal string, or
`colors[idx] + body + reset`. -/
inductive Piece where
  | plain (s : String)
  | tinted (idx : Int) (body : String)
  deriving DecidableEq, Repr

/-- The string a piece stands for (`none` if the palette lookup panics). -/
def Piece.text : Piece → Option String
  | .plain s => some s
  | .tinted idx body => (colorAt idx).map (fun c => c ++ body ++ reset)

/-- Number of characters of a character list that are printed, leaving out the
escape sequences (from the escape character, code 27, through the next `m`).
The flag says whether the scan is inside an escape sequence. -/
def visibleChars : Bool → List Char → Nat
  | _, [] => 0
  | true, c :: cs => if c = 'm' then visibleChars false cs else visibleChars true cs
  | false, c :: cs =>
      if c = Char.ofNat 27 then visibleChars true cs else 1 + visibleChars false cs

/-- Printed width of a string: its characters outside colour escapes. -/
def visibleWidth (s : String) : Nat := visibleChars false s.data

/-- Printed width of a piece (zero if the palette lookup panics). -/
def Piece.visible (p : Piece) : Nat :=
  match p.text with
  | some s => visibleWidth s
  | none => 0

/-- The palette index of a piece, if it has one, is a valid index of `colors`. -/
def Piece.indexInRange : Piece → Prop
  | .plain _ => True
  | .tinted idx _ => 0 ≤ idx ∧ idx < lenColors

/-! ## Letter shape (`main.go` lines 10-11 and 31-129) -/

def height : Int := 60
def width : Int := 120

/-- Line 39. -/
def leftPillar (col : Int) : Bool := decide (col ≥ 0) && decide (col ≤ 8)

/-- Line 40. -/
def leftPillarDepth (col : Int) : Int := col

/-- Line 43. -/
def rightPillar (col : Int) : Bool :=
  decide (col ≥ width - 9) && decide (col ≤ width - 1)

/-- Line 44. -/
def rightPillarDepth (col : Int) : Int := width - col - 1

/-- Line 47. -/
def leftDiagStart : Int := 8

/-- Line 48: `float64(row) * 0.8`. -/
def leftDiagSlope (row : Int) : ℚ := (row : ℚ) * 0.8

/-- Lines 49-51. -/
def leftDiagonal (row col : Int) : Bool :=
  decide (col ≥ goInt (leftDiagSlope row) + leftDiagStart - 4) &&
  decide (col ≤ goInt (leftDiagSlope row) + leftDiagStart + 4) &&
  decide (row < goDiv height 2)

/-- Line 52. -/
def leftDiagDepth (row col : Int) : Int :=
  goInt |(col : ℚ) - (leftDiagSlope row + (leftDiagStart : ℚ))|

/-- Line 55. -/
def rightDiagStart : Int := width - 9

/-- Line 56: `float64(row) * 0.8`. -/
def rightDiagSlope (row : Int) : ℚ := (row : ℚ) * 0.8

/-- Lines 57-59. -/
def rightDiagonal (row col : Int) : Bool :=
  decide (col ≥ goInt ((rightDiagStart : ℚ) - rightDiagSlope row) - 4) &&
  decide (col ≤ goInt ((rightDiagStart : ℚ) - rightDiagSlope row) + 4) &&
  decide (row < goDiv height 2)

/-- Line 60. -/
def rightDiagDepth (row col : Int) : Int :=
  goInt |(col : ℚ) - ((rightDiagStart : ℚ) - rightDiagSlope row)|

/-- The glyph strings of the letter shape. -/
def solidBlock : String := "█"
def mediumShade : String := "▓"
def lightShade : String := "▒"
def sparkleMark : String := "✦"

/-- Lines 68-78: body of the `leftPillar` branch, as `(char, colorIndex)`. -/
def leftPillarShade (row col : Int) : String × Int :=
  let colorIndex := goMod (leftPillarDepth col) lenColors
  let char := if goMod row 2 = 0 then solidBlock else mediumShade
  let char :=
    if leftPillarDepth col < 3 then solidBlock
    else if leftPillarDepth col < 6 then mediumShade
    else char
  (char, colorIndex)

/-- Lines 81-91: body of the `rightPillar` branch. -/
def rightPillarShade (row col : Int) : String × Int :=
  let colorIndex := goMod (rightPillarDepth col) lenColors
  let char := if goMod row 2 = 0 then solidBlock else mediumShade
  let char :=
    if rightPillarDepth col < 3 then solidBlock
    else if rightPillarDepth col < 6 then mediumShade
    else char
  (char, colorIndex)

/-- Lines 94-101: body of the `leftDiagonal` branch. -/
def leftDiagShade (row col : Int) : String × Int :=
  let colorIndex := goMod (leftDiagDepth row col + goDiv row 5) lenColors
  let char :=
    if leftDiagDepth row col = 0 then solidBlock
    else if leftDiagDepth row col ≤ 2 then mediumShade
    else lightShade
  (char, colorIndex)

/-- Lines 104-111: body of the `rightDiagonal` branch. -/
def rightDiagShade (row col : Int) : String × Int :=
  let colorIndex := goMod (rightDiagDepth row col + goDiv row 5) lenColors
  let char :=
    if rightDiagDepth row col = 0 then solidBlock
    else if rightDiagDepth row col ≤ 2 then mediumShade
    else lightShade
  (char, colorIndex)

/-- Lines 63-112: the values of `char` and `colorIndex` after the
`if / else if` chain. -/
def shade (row col : Int) : String × Int :=
  if leftPillar col then leftPillarShade row col
  else if rightPillar col then rightPillarShade row col
  else if leftDiagonal row col then leftDiagShade row col
  else if rightDiagonal row col then rightDiagShade row col
  else (" ", 0)

/-- The branch labels of the chain of lines 66-112. -/
inductive Shape where
  | leftPillar | rightPillar | leftDiagonal | rightDiagonal | background
  deriving DecidableEq, Repr

/-- The branch of the chain of lines 66-112 that runs for a cell. -/
def shapeOf (row col : Int) : Shape :=
  if leftPillar col then .leftPillar
  else if rightPillar col then .rightPillar
  else if leftDiagonal row col then .leftDiagonal
  else if rightDiagonal row col then .rightDiagonal
  else .background

/-- The body of one branch of the chain. -/
def shadeAs : Shape → Int → Int → String × Int
  | .leftPillar, row, col => leftPillarShade row col
  | .rightPillar, row, col => rightPillarShade row col
  | .leftDiagonal, row, col => leftDiagShade row col
  | .rightDiagonal, row, col => rightDiagShade row col
  | .background, _, _ => (" ", 0)

/-- The depth variable read by the branch of a shape. -/
def depthAs : Shape → Int → Int → Int
  | .leftPillar, _, col => leftPillarDepth col
  | .rightPillar, _, col => rightPillarDepth col
  | .leftDiagonal, row, col => leftDiagDepth row col
  | .rightDiagonal, row, col => rightDiagDepth row col
  | .background, _, _ => 0

/-- Line 115: the condition of the sparkle branch. -/
def sparkle (row col : Int) : Bool :=
  (leftPillar col || rightPillar col || leftDiagonal row col || rightDiagonal row col) &&
  decide (goMod row 7 = goMod col 7)

/-- Lines 115-126: the argument of the one `fmt.Print` executed for a cell. -/
def cell (row col : Int) : Piece :=
  if sparkle row col then .tinted 5 sparkleMark
  else if (shade row col).1 ≠ " " then .tinted (shade row col).2 (shade row col).1
  else if goMod row 3 = 0 ∧ goMod col 6 = 0 then .plain "\x1b[38;5;236m·\x1b[0m"
  else .plain " "

/-- The text written for a cell. -/
def cellText (row col : Int) : Option String := (cell row col).text

/-! ## Decorative rows (`main.go` lines 160-170) -/

/-- Lines 161-167: the piece printed for row `i`, column `j`. -/
def decoCell (i j : Int) : Piece :=
  let colorIdx := goMod i lenColors
  if goMod j (i + 1) = 0 then .tinted colorIdx "1"
  else .tinted (goMod (colorIdx + 1) lenColors) "1"

/-! ## Wave rows (`main.go` lines 176-186) -/

section Sine

variable {α : Type} [LinearOrderedField α] [FloorRing α]

/-- Line 178: `waveHeight`, with `sin` standing for `math.Sin`. -/
def waveHeight (sin : α → α) (wave pos : Int) : Int :=
  goInt (15 * (sin ((pos : α) / 5.0 + (wave : α)) + 1))

/-- Lines 179-183: the piece printed at position `pos` of wave `wave`. -/
def waveCell (sin : α → α) (wave pos : Int) : Piece :=
  if goMod pos 2 = goMod wave 2 then
    .tinted (goMod (waveHeight sin wave pos) lenColors) "1"
  else
    .tinted (goMod (waveHeight sin wave pos + 1) lenColors) "1"

/-! ## Finale rows (`main.go` lines 264-280) -/

/-- Line 267: `intensity`, with `sin` standing for `math.Sin`. -/
def intensity (sin : α → α) (line col : Int) : Int :=
  goInt ((sin ((col : α) / 3.0 + (line : α) / 2.0) + 1) * 3.5)

/-- Lines 265-277: the piece printed at column `col` of line `line`. -/
def finaleCell (sin : α → α) (line col : Int) : Piece :=
  let colorIdx := goMod line lenColors
  match goMod (intensity sin line col) 4 with
  | 0 => .tinted colorIdx "1"
  | 1 => .tinted (goMod (colorIdx + 1) lenColors) "1"
  | 2 => .tinted (goMod (colorIdx + 2) lenColors) "1"
  | _ => .tinted (goMod (colorIdx + 3) lenColors) "1"

end Sine

/-! ## Spiral (`main.go` lines 191-218) -/

/-- Line 191. -/
def size : Int := 30

/-- The slice of slices `spiral`. -/
abbrev Grid := List (List String)

/-- The blank cell value of line 196. -/
def blank : String := "  "

/-- Lines 192-198: `size` rows of `size` blank cells. -/
def blankGrid : Grid := List.replicate size.toNat (List.replicate size.toNat blank)

/-- The assignment `spiral[r][c] = v`; `none` is the index-out-of-range panic. -/
def gridSet (g : Grid) (r c : Int) (v : String) : Option Grid :=
  if 0 ≤ r ∧ r < (g.length : Int) then
    match g[r.toNat]? with
    | some line =>
        if 0 ≤ c ∧ c < (line.length : Int) then some (g.set r.toNat (line.set c.toNat v))
        else none
    | none => none
  else none

/-- The variables `x, y, dx, dy` of the walk. -/
structure Cursor where
  x : Int
  y : Int
  dx : Int
  dy : Int
  deriving DecidableEq, Repr

/-- Lines 200-201: the cursor before the first step. -/
def startCursor : Cursor := ⟨goDiv size 2, goDiv size 2, 0, -1⟩

/-- Line 203: the in-bounds guard (`-size/2` is `(-size)/2` in Go). -/
def inBounds (x y : Int) : Bool :=
  decide (goDiv (-size) 2 < x) && decide (x ≤ goDiv size 2) &&
  decide (goDiv (-size) 2 < y) && decide (y ≤ goDiv size 2)

/-- Line 206: the turning condition. -/
def turns (x y : Int) : Bool :=
  decide (x = y) || (decide (x < 0) && decide (x = -y)) || (decide (x > 0) && decide (x = 1 - y))

/-- Lines 206-209: turn if the condition holds, then move. -/
def Cursor.next (c : Cursor) : Cursor :=
  let d : Int × Int := if turns c.x c.y then (-c.dy, c.dx) else (c.dx, c.dy)
  ⟨c.x + d.1, c.y + d.2, d.1, d.2⟩

/-- The rule of lines 206-209 applied `i` times to the start cursor, the guarded
write of lines 203-205 left out.  It is the cursor of the run at step 0 only:
the walk itself is `spiralLoop`, in which the write of step 0 panics. -/
def cursorAt : Nat → Cursor
  | 0 => startCursor
  | i + 1 => (cursorAt i).next

/-- Line 204, right-hand side: the value stamped at step `i`. -/
def stamp (i : Int) : Option String :=
  (colorAt (goMod i lenColors)).map (fun c => c ++ "1" ++ reset ++ " ")

/-- Lines 203-209: one iteration of the walk, at step `i`. -/
def spiralStep (i : Int) (g : Grid) (c : Cursor) : Option (Grid × Cursor) :=
  if inBounds c.x c.y then
    (stamp i).bind fun v =>
      (gridSet g (c.y + goDiv size 2) (c.x + goDiv size 2) v).map fun g2 => (g2, c.next)
  else some (g, c.next)

/-- The loop of line 202 with `n` iterations left, the next one being step `i`. -/
def spiralLoop : Nat → Int → Grid → Cursor → Option (Grid × Cursor)
  | 0, _, g, c => some (g, c)
  | n + 1, i, g, c => (spiralStep i g c).bind fun st => spiralLoop n (i + 1) st.1 st.2

/-- Lines 192-210: the grid after the `size*size` steps of the walk. -/
def spiralWalk : Option Grid :=
  (spiralLoop (size * size).toNat 0 blankGrid startCursor).map Prod.fst

/-! ## Diamond (`main.go` lines 223-241) -/

/-- Line 223. -/
def diamondSize : Int := 20

/-- Line 225: `spaces`. -/
def spaces (i : Int) : Int := goInt |((goDiv diamondSize 2 - i : Int) : ℚ)|

/-- Line 226: `ones`. -/
def ones (i : Int) : Int := diamondSize - spaces i * 2

/-- Lines 234-238: the piece printed for glyph `o` of row `i`. -/
def diamondGlyph (i o : Int) : Piece :=
  let colorIdx := goMod i lenColors
  if goMod o 2 = 0 then .tinted colorIdx "1 "
  else .tinted (goMod (colorIdx + 1) lenColors) "1 "

/-- Lines 229-231: the pieces of the padding loop of row `i`. -/
def diamondPad (i : Int) : List Piece :=
  List.replicate (spaces i).toNat (.plain " ")

/-- Lines 233-239: the pieces of the glyph loop of row `i`. -/
def diamondGlyphs (i : Int) : List Piece :=
  (List.range (ones i).toNat).map fun (o : Nat) => diamondGlyph i (o : Int)

/-- Lines 228-239: all pieces printed for row `i`, the margin first. -/
def diamondRow (i : Int) : List Piece :=
  Piece.plain "     " :: (diamondPad i ++ diamondGlyphs i)

/-- Printed width of a sequence of pieces. -/
def rowWidth (ps : List Piece) : Nat := (ps.map Piece.visible).sum

/-! ## Checkerboard (`main.go` lines 246-256) -/

/-- Lines 249-253: the piece printed for cell `(i, j)`. -/
def checkerCell (i j : Int) : Piece :=
  if goMod (i + j) 2 = 0 then .tinted (goMod i lenColors) "11"
  else .tinted (goMod (i + 1) lenColors) "11"

/-! ## The classification of §4.2 as the specification words it -/

/-- Left pillar: column in `[0, 8]`. -/
abbrev inLeftPillar (col : Int) : Prop := 0 ≤ col ∧ col ≤ 8

/-- Right pillar: column in `[W-9, W-1]`. -/
abbrev inRightPillar (col : Int) : Prop := width - 9 ≤ col ∧ col ≤ width - 1

/-- Left diagonal: top half of the rows, column within 4 of `trunc(row*0.8) + 8`,
with `trunc(row*0.8)` taken as `floor(4*row/5)`. -/
abbrev inLeftDiagonal (row col : Int) : Prop :=
  row < height / 2 ∧ |col - (4 * row / 5 + 8)| ≤ 4

/-- Right diagonal: top half of the rows, column within 4 of
`trunc((W-9) - row*0.8)`. -/
abbrev inRightDiagonal (row col : Int) : Prop :=
  row < height / 2 ∧ |col - goInt (((width - 9 : Int) : ℚ) - 4 * (row : ℚ) / 5)| ≤ 4

/-- The class of a cell by precedence: a shape is the class of the cell when its
test holds and the test of no earlier shape does. -/
def firstMatch (row col : Int) : Shape → Prop
  | .leftPillar => inLeftPillar col
  | .rightPillar => ¬ inLeftPillar col ∧ inRightPillar col
  | .leftDiagonal => ¬ inLeftPillar col ∧ ¬ inRightPillar col ∧ inLeftDiagonal row col
  | .rightDiagonal =>
      ¬ inLeftPillar col ∧ ¬ inRightPillar col ∧ ¬ inLeftDiagonal row col ∧
        inRightDiagonal row col
  | .background =>
      ¬ inLeftPillar col ∧ ¬ inRightPillar col ∧ ¬ inLeftDiagonal row col ∧
        ¬ inRightDiagonal row col

instance (row col : Int) (s : Shape) : Decidable (firstMatch row col s) := by
  cases s <;> unfold firstMatch <;> infer_instance

/-! # Properties -/

/-! ## Arithmetic of the embedding -/

theorem goDiv_of_nonneg (a b : Int) (ha : 0 ≤ a) (hb : 0 ≤ b) : goDiv a b = a / b := by
  unfold goDiv
  exact Int.tdiv_eq_ediv ha hb

theorem goMod_of_nonneg (a b : Int) (ha : 0 ≤ a) (hb : 0 ≤ b) : goMod a b = a % b := by
  unfold goMod
  exact Int.tmod_eq_emod ha hb

theorem lenColors_eq : lenColors = 8 := by decide

theorem half_height : goDiv height 2 = 30 := by decide

/-- Truncating a non-negative number of fifths. -/
theorem goInt_fifths (n : Int) (hn : 0 ≤ n) : goInt ((n : ℚ) / 5) = n / 5 := by
  have h0 : (0 : ℚ) ≤ (n : ℚ) / 5 := by positivity
  unfold goInt
  rw [if_pos h0]
  have key := Rat.floor_intCast_div_natCast n 5
  simpa using key

/-- Truncating the absolute value of a whole number is the absolute value. -/
theorem goInt_abs_cast (n : Int) : goInt |(n : ℚ)| = |n| := by
  unfold goInt
  rw [if_pos (abs_nonneg _), ← Int.cast_abs, Int.floor_intCast]

theorem leftDiagSlope_eq (row : Int) : leftDiagSlope row = ((4 * row : Int) : ℚ) / 5 := by
  unfold leftDiagSlope
  push_cast
  norm_num
  ring

theorem goInt_leftDiagSlope (row : Int) (h : 0 ≤ row) :
    goInt (leftDiagSlope row) = 4 * row / 5 := by
  rw [leftDiagSlope_eq, goInt_fifths _ (by omega)]

theorem rightCentre_eq (row : Int) :
    (rightDiagStart : ℚ) - rightDiagSlope row = ((555 - 4 * row : Int) : ℚ) / 5 := by
  unfold rightDiagSlope rightDiagStart width
  push_cast
  norm_num
  ring

theorem goInt_rightCentre (row : Int) (h : row < 60) :
    goInt ((rightDiagStart : ℚ) - rightDiagSlope row) = (555 - 4 * row) / 5 := by
  rw [rightCentre_eq, goInt_fifths _ (by omega)]

theorem goInt_specRightCentre (row : Int) (h : row < 60) :
    goInt (((width - 9 : Int) : ℚ) - 4 * (row : ℚ) / 5) = (555 - 4 * row) / 5 := by
  have e : ((width - 9 : Int) : ℚ) - 4 * (row : ℚ) / 5 = ((555 - 4 * row : Int) : ℚ) / 5 := by
    unfold width
    push_cast
    ring
  rw [e, goInt_fifths _ (by omega)]

theorem leftDiagDepth_eq (row col : Int) :
    leftDiagDepth row col = |5 * col - 4 * row - 40| / 5 := by
  have e : |(col : ℚ) - (leftDiagSlope row + (leftDiagStart : ℚ))|
      = ((|5 * col - 4 * row - 40| : Int) : ℚ) / 5 := by
    unfold leftDiagSlope leftDiagStart
    push_cast
    rw [eq_div_iff (by norm_num), ← abs_of_pos (show (0 : ℚ) < 5 by norm_num), ← abs_mul]
    congr 1
    norm_num
    ring
  unfold leftDiagDepth
  rw [e, goInt_fifths _ (abs_nonneg _)]

theorem rightDiagDepth_eq (row col : Int) :
    rightDiagDepth row col = |5 * col + 4 * row - 555| / 5 := by
  have e : |(col : ℚ) - ((rightDiagStart : ℚ) - rightDiagSlope row)|
      = ((|5 * col + 4 * row - 555| : Int) : ℚ) / 5 := by
    unfold rightDiagSlope rightDiagStart width
    push_cast
    rw [eq_div_iff (by norm_num), ← abs_of_pos (show (0 : ℚ) < 5 by norm_num), ← abs_mul]
    congr 1
    norm_num
    ring
  unfold rightDiagDepth
  rw [e, goInt_fifths _ (abs_nonneg _)]

/-! ## Membership tests of the letter shape -/

theorem leftPillar_iff (col : Int) : leftPillar col = true ↔ 0 ≤ col ∧ col ≤ 8 := by
  simp [leftPillar]

theorem rightPillar_iff (col : Int) : rightPillar col = true ↔ 111 ≤ col ∧ col ≤ 119 := by
  simp [rightPillar, width]

theorem leftDiagonal_iff (row col : Int) (h : 0 ≤ row) :
    leftDiagonal row col = true ↔
      4 * row / 5 + 4 ≤ col ∧ col ≤ 4 * row / 5 + 12 ∧ row < 30 := by
  simp only [leftDiagonal, goInt_leftDiagSlope row h, half_height, leftDiagStart,
    Bool.and_eq_true, decide_eq_true_eq]
  omega

theorem rightDiagonal_iff (row col : Int) (h : row < 60) :
    rightDiagonal row col = true ↔
      (555 - 4 * row) / 5 - 4 ≤ col ∧ col ≤ (555 - 4 * row) / 5 + 4 ∧ row < 30 := by
  simp only [rightDiagonal, goInt_rightCentre row h, half_height,
    Bool.and_eq_true, decide_eq_true_eq]
  omega

theorem inLeftDiagonal_iff (row col : Int) :
    inLeftDiagonal row col ↔
      4 * row / 5 + 4 ≤ col ∧ col ≤ 4 * row / 5 + 12 ∧ row < 30 := by
  simp only [inLeftDiagonal, height, abs_le]
  omega

theorem inRightDiagonal_iff (row col : Int) (h : row < 60) :
    inRightDiagonal row col ↔
      (555 - 4 * row) / 5 - 4 ≤ col ∧ col ≤ (555 - 4 * row) / 5 + 4 ∧ row < 30 := by
  simp only [inRightDiagonal, goInt_specRightCentre row h, height, abs_le]
  omega

theorem shade_eq_shadeAs (row col : Int) :
    shade row col = shadeAs (shapeOf row col) row col := by
  unfold shade shapeOf
  split_ifs <;> rfl

/-- On the grid, the code's chain takes the branch of a shape exactly when that
shape is the first whose test, as the specification words it, holds. -/
theorem firstMatch_iff_shapeOf (row col : Int) (hrow : 0 ≤ row ∧ row < 60) (s : Shape) :
    firstMatch row col s ↔ s = shapeOf row col := by
  have h1 : inLeftPillar col ↔ leftPillar col = true := (leftPillar_iff col).symm
  have h2 : inRightPillar col ↔ rightPillar col = true := by
    rw [rightPillar_iff]; simp only [inRightPillar, width]; omega
  have h3 : inLeftDiagonal row col ↔ leftDiagonal row col = true :=
    (inLeftDiagonal_iff row col).trans (leftDiagonal_iff row col hrow.1).symm
  have h4 : inRightDiagonal row col ↔ rightDiagonal row col = true :=
    (inRightDiagonal_iff row col hrow.2).trans (rightDiagonal_iff row col hrow.2).symm
  unfold shapeOf
  cases s <;> unfold firstMatch <;> rw [h1] <;> (try rw [h2]) <;> (try rw [h3]) <;>
    (try rw [h4]) <;>
    cases leftPillar col <;> cases rightPillar col <;>
    cases leftDiagonal row col <;> cases rightDiagonal row col <;> simp

/-- C3 (letter-shape classification): on the 60 x 120 grid each membership test of
the code is the test of the specification (left pillar: `col` in `[0, 8]`; right
pillar: `col` in `[W-9, W-1]`; left diagonal: `row < H/2` and `col` within 4 of
`floor(4*row/5) + 8`; right diagonal: `row < H/2` and `col` within 4 of
`trunc((W-9) - row*0.8)`); exactly one class is the first match, it is the branch
the `if / else if` chain takes, the glyph and colour index are the ones of that
branch, and a cell passing both a pillar test and a diagonal test takes a pillar
branch. -/
theorem shape_classification (row col : Int)
    (hrow : 0 ≤ row ∧ row < height) (_hcol : 0 ≤ col ∧ col < width) :
    (leftPillar col = true ↔ inLeftPillar col) ∧
    (rightPillar col = true ↔ inRightPillar col) ∧
    (leftDiagonal row col = true ↔ inLeftDiagonal row col) ∧
    (rightDiagonal row col = true ↔ inRightDiagonal row col) ∧
    (∃! s, firstMatch row col s) ∧
    firstMatch row col (shapeOf row col) ∧
    shade row col = shadeAs (shapeOf row col) row col ∧
    ((inLeftPillar col ∨ inRightPillar col) →
      (inLeftDiagonal row col ∨ inRightDiagonal row col) →
      shapeOf row col = Shape.leftPillar ∨ shapeOf row col = Shape.rightPillar) := by
  have hr : 0 ≤ row ∧ row < 60 := hrow
  have h1 : leftPillar col = true ↔ inLeftPillar col := leftPillar_iff col
  have h2 : rightPillar col = true ↔ inRightPillar col := by
    rw [rightPillar_iff]; simp only [inRightPillar, width]; omega
  have h3 := (leftDiagonal_iff row col hr.1).trans (inLeftDiagonal_iff row col).symm
  have h4 := (rightDiagonal_iff row col hr.2).trans (inRightDiagonal_iff row col hr.2).symm
  have hfm := firstMatch_iff_shapeOf row col hr
  refine ⟨h1, h2, h3, h4, ⟨shapeOf row col, (hfm _).2 rfl, fun s hs => (hfm s).1 hs⟩,
    (hfm _).2 rfl, shade_eq_shadeAs row col, ?_⟩
  intro hp _
  unfold shapeOf
  rcases hp with hp | hp
  · rw [if_pos (h1.2 hp)]
    exact Or.inl rfl
  · by_cases hl : leftPillar col = true
    · rw [if_pos hl]
      exact Or.inl rfl
    · rw [if_neg hl, if_pos (h2.2 hp)]
      exact Or.inr rfl

theorem shape_classification_witness :
    (leftPillar 5 = true ↔ inLeftPillar 5) ∧
    (rightPillar 5 = true ↔ inRightPillar 5) ∧
    (leftDiagonal 0 5 = true ↔ inLeftDiagonal 0 5) ∧
    (rightDiagonal 0 5 = true ↔ inRightDiagonal 0 5) ∧
    (∃! s, firstMatch 0 5 s) ∧
    firstMatch 0 5 (shapeOf 0 5) ∧
    shade 0 5 = shadeAs (shapeOf 0 5) 0 5 ∧
    ((inLeftPillar 5 ∨ inRightPillar 5) →
      (inLeftDiagonal 0 5 ∨ inRightDiagonal 0 5) →
      shapeOf 0 5 = Shape.leftPillar ∨ shapeOf 0 5 = Shape.rightPillar) :=
  shape_classification 0 5 (by decide) (by decide)

/-! ## Palette indices -/

theorem goMod_lenColors_range (a : Int) (h : 0 ≤ a) :
    0 ≤ goMod a lenColors ∧ goMod a lenColors < lenColors := by
  rw [lenColors_eq, goMod_of_nonneg a 8 h (by decide)]
  omega

theorem goInt_nonneg {α : Type} [LinearOrderedField α] [FloorRing α] (v : α) (h : 0 ≤ v) :
    0 ≤ goInt v := by
  unfold goInt
  rw [if_pos h]
  exact Int.floor_nonneg.2 h

theorem leftDiagOperand_nonneg (row col : Int) (h : 0 ≤ row) :
    0 ≤ leftDiagDepth row col + goDiv row 5 := by
  rw [leftDiagDepth_eq, goDiv_of_nonneg row 5 h (by decide)]
  have h1 : 0 ≤ |5 * col - 4 * row - 40| / 5 := Int.ediv_nonneg (abs_nonneg _) (by decide)
  omega

theorem rightDiagOperand_nonneg (row col : Int) (h : 0 ≤ row) :
    0 ≤ rightDiagDepth row col + goDiv row 5 := by
  rw [rightDiagDepth_eq, goDiv_of_nonneg row 5 h (by decide)]
  have h1 : 0 ≤ |5 * col + 4 * row - 555| / 5 := Int.ediv_nonneg (abs_nonneg _) (by decide)
  omega

theorem shade_index_range (row col : Int) (hrow : 0 ≤ row) (hcol : 0 ≤ col ∧ col < width) :
    0 ≤ (shade row col).2 ∧ (shade row col).2 < lenColors := by
  have w : width = 120 := rfl
  unfold shade
  split_ifs
  · exact goMod_lenColors_range _ hcol.1
  · exact goMod_lenColors_range _ (by unfold rightPillarDepth; omega)
  · exact goMod_lenColors_range _ (leftDiagOperand_nonneg row col hrow)
  · exact goMod_lenColors_range _ (rightDiagOperand_nonneg row col hrow)
  · exact ⟨le_refl _, by decide⟩

theorem cell_indexInRange (row col : Int) (hrow : 0 ≤ row) (hcol : 0 ≤ col ∧ col < width) :
    (cell row col).indexInRange := by
  unfold cell
  split_ifs
  · exact ⟨by decide, by decide⟩
  · exact shade_index_range row col hrow hcol
  · trivial
  · trivial

theorem waveHeight_nonneg {α : Type} [LinearOrderedField α] [FloorRing α] (sin : α → α)
    (hsin : ∀ t, -1 ≤ sin t ∧ sin t ≤ 1) (wave pos : Int) : 0 ≤ waveHeight sin wave pos := by
  unfold waveHeight
  apply goInt_nonneg
  have h := (hsin ((pos : α) / 5.0 + (wave : α))).1
  have h2 : 0 ≤ sin ((pos : α) / 5.0 + (wave : α)) + 1 := by linarith
  positivity

/-- A palette lookup with a valid index does not panic. -/
theorem colorAt_isSome (i : Int) (h : 0 ≤ i ∧ i < lenColors) : (colorAt i).isSome = true := by
  rw [lenColors_eq] at h
  obtain ⟨h0, h8⟩ := h
  interval_cases i <;> rfl

/-- A piece whose palette index is valid has a text: printing it does not panic. -/
theorem text_isSome_of_indexInRange (p : Piece) (h : p.indexInRange) :
    p.text.isSome = true := by
  cases p with
  | plain s => rfl
  | tinted idx body =>
      have hc := colorAt_isSome idx h
      obtain ⟨c, hcv⟩ := Option.isSome_iff_exists.1 hc
      simp only [Piece.text, hcv, Option.map_some', Option.isSome_some]

/-- C4 (palette lookups are in range): for all loop indices within the coded
bounds, and `math.Sin` any function with values in `[-1, 1]`, every palette index
computed by the render lies in `[0, 8)`: the letter shape's `colorIndex` and the
index of the piece it prints, the decorative rows, the wave rows, the spiral
stamp, the diamond, the checkerboard and the finale rows; and the operands of the
`% len(colors)` reductions (pillar depths in their branches, diagonal depth plus
`row/5`, `waveHeight` and `waveHeight+1`, the step index, `colorIdx+k`) are
non-negative. -/
theorem palette_index_in_range {α : Type} [LinearOrderedField α] [FloorRing α]
    (sin : α → α) (hsin : ∀ t, -1 ≤ sin t ∧ sin t ≤ 1)
    (row col i j wave pos step d o ci cj line fcol : Int)
    (hrow : 0 ≤ row ∧ row < height) (hcol : 0 ≤ col ∧ col < width)
    (hi : 0 ≤ i ∧ i < 15) (_hj : 0 ≤ j ∧ j < 110)
    (_hwave : 0 ≤ wave ∧ wave < 10) (_hpos : 0 ≤ pos ∧ pos < 100)
    (hstep : 0 ≤ step ∧ step < size * size)
    (hd : 0 ≤ d ∧ d < diamondSize) (_ho : 0 ≤ o ∧ o < ones d)
    (hci : 0 ≤ ci ∧ ci < 15) (_hcj : 0 ≤ cj ∧ cj < 50)
    (hline : 0 ≤ line ∧ line < 30) (_hfcol : 0 ≤ fcol ∧ fcol < 110) :
    ((0 ≤ (shade row col).2 ∧ (shade row col).2 < lenColors) ∧
      (cell row col).indexInRange ∧
      (decoCell i j).indexInRange ∧
      (waveCell sin wave pos).indexInRange ∧
      (0 ≤ goMod step lenColors ∧ goMod step lenColors < lenColors) ∧
      (diamondGlyph d o).indexInRange ∧
      (checkerCell ci cj).indexInRange ∧
      (finaleCell sin line fcol).indexInRange) ∧
    ((leftPillar col = true → 0 ≤ leftPillarDepth col) ∧
      (rightPillar col = true → 0 ≤ rightPillarDepth col) ∧
      0 ≤ leftDiagDepth row col + goDiv row 5 ∧
      0 ≤ rightDiagDepth row col + goDiv row 5 ∧
      0 ≤ i ∧ 0 ≤ goMod i lenColors + 1 ∧
      0 ≤ waveHeight sin wave pos ∧ 0 ≤ waveHeight sin wave pos + 1 ∧
      0 ≤ step ∧
      0 ≤ d ∧ 0 ≤ goMod d lenColors + 1 ∧
      0 ≤ ci ∧ 0 ≤ ci + 1 ∧
      0 ≤ line ∧ 0 ≤ goMod line lenColors + 1 ∧ 0 ≤ goMod line lenColors + 2 ∧
      0 ≤ goMod line lenColors + 3) := by
  have w : width = 120 := rfl
  have hwh := waveHeight_nonneg sin hsin wave pos
  have hmi := goMod_lenColors_range i hi.1
  have hmd := goMod_lenColors_range d hd.1
  have hml := goMod_lenColors_range line hline.1
  refine ⟨⟨shade_index_range row col hrow.1 hcol, cell_indexInRange row col hrow.1 hcol,
    ?_, ?_, goMod_lenColors_range step hstep.1, ?_, ?_, ?_⟩, ?_⟩
  · unfold decoCell
    dsimp only
    split_ifs
    · exact hmi
    · exact goMod_lenColors_range _ (by omega)
  · unfold waveCell
    split_ifs
    · exact goMod_lenColors_range _ hwh
    · exact goMod_lenColors_range _ (by omega)
  · unfold diamondGlyph
    dsimp only
    split_ifs
    · exact hmd
    · exact goMod_lenColors_range _ (by omega)
  · unfold checkerCell
    split_ifs
    · exact goMod_lenColors_range _ hci.1
    · exact goMod_lenColors_range _ (by omega)
  · unfold finaleCell
    dsimp only
    split
    · exact hml
    · exact goMod_lenColors_range _ (by omega)
    · exact goMod_lenColors_range _ (by omega)
    · exact goMod_lenColors_range _ (by omega)
  · refine ⟨fun _ => hcol.1, fun _ => ?_, leftDiagOperand_nonneg row col hrow.1,
      rightDiagOperand_nonneg row col hrow.1, ?_⟩
    · unfold rightPillarDepth
      omega
    · omega

theorem palette_index_in_range_witness :
    ((0 ≤ (shade 3 20).2 ∧ (shade 3 20).2 < lenColors) ∧
      (cell 3 20).indexInRange ∧
      (decoCell 2 7).indexInRange ∧
      (waveCell (fun _ : ℚ => 0) 4 9).indexInRange ∧
      (0 ≤ goMod 17 lenColors ∧ goMod 17 lenColors < lenColors) ∧
      (diamondGlyph 10 3).indexInRange ∧
      (checkerCell 7 8).indexInRange ∧
      (finaleCell (fun _ : ℚ => 0) 11 12).indexInRange) ∧
    ((leftPillar 20 = true → 0 ≤ leftPillarDepth 20) ∧
      (rightPillar 20 = true → 0 ≤ rightPillarDepth 20) ∧
      0 ≤ leftDiagDepth 3 20 + goDiv 3 5 ∧
      0 ≤ rightDiagDepth 3 20 + goDiv 3 5 ∧
      (0 : Int) ≤ 2 ∧ 0 ≤ goMod 2 lenColors + 1 ∧
      0 ≤ waveHeight (fun _ : ℚ => 0) 4 9 ∧ 0 ≤ waveHeight (fun _ : ℚ => 0) 4 9 + 1 ∧
      (0 : Int) ≤ 17 ∧
      (0 : Int) ≤ 10 ∧ 0 ≤ goMod 10 lenColors + 1 ∧
      (0 : Int) ≤ 7 ∧ (0 : Int) ≤ 7 + 1 ∧
      (0 : Int) ≤ 11 ∧ 0 ≤ goMod 11 lenColors + 1 ∧ 0 ≤ goMod 11 lenColors + 2 ∧
      0 ≤ goMod 11 lenColors + 3) :=
  palette_index_in_range (fun _ : ℚ => 0) (fun _ => ⟨by norm_num, by norm_num⟩)
    3 20 2 7 4 9 17 10 3 7 8 11 12
    (by decide) (by decide) (by decide) (by decide) (by decide) (by decide) (by decide)
    (by decide) (by rw [show ones 10 = 20 from by
      unfold ones spaces; rw [goInt_abs_cast]; decide]; decide)
    (by decide) (by decide) (by decide) (by decide)

/-! ## Diamond -/

theorem half_diamondSize : goDiv diamondSize 2 = 10 := by decide

theorem spaces_eq (i : Int) : spaces i = |10 - i| := by
  unfold spaces
  rw [goInt_abs_cast, half_diamondSize]

theorem ones_eq (i : Int) : ones i = 20 - 2 * |10 - i| := by
  unfold ones
  rw [spaces_eq]
  unfold diamondSize
  ring

theorem ones_nonneg (i : Int) (hi : 0 ≤ i ∧ i < 20) : 0 ≤ ones i := by
  rw [ones_eq]
  have h : |10 - i| ≤ 10 := abs_le.2 ⟨by omega, by omega⟩
  omega

theorem diamondPad_length (i : Int) : ((diamondPad i).length : Int) = |10 - i| := by
  unfold diamondPad
  rw [List.length_replicate, spaces_eq, Int.toNat_of_nonneg (abs_nonneg _)]

theorem diamondGlyphs_length (i : Int) (hi : 0 ≤ i ∧ i < 20) :
    ((diamondGlyphs i).length : Int) = 20 - 2 * |10 - i| := by
  unfold diamondGlyphs
  rw [List.length_map, List.length_range, Int.toNat_of_nonneg (ones_nonneg i hi), ones_eq]

theorem diamondGlyph_body (i o : Int) : ∃ idx, diamondGlyph i o = Piece.tinted idx "1 " := by
  unfold diamondGlyph
  dsimp only
  split_ifs
  · exact ⟨_, rfl⟩
  · exact ⟨_, rfl⟩

theorem tinted_one_visible (idx : Int) (h : 0 ≤ idx ∧ idx < lenColors) :
    (Piece.tinted idx "1 ").visible = 2 := by
  rw [lenColors_eq] at h
  obtain ⟨h0, h8⟩ := h
  interval_cases idx <;> decide

theorem diamondGlyph_visible (i o : Int) (hi : 0 ≤ i) : (diamondGlyph i o).visible = 2 := by
  have hmi := goMod_lenColors_range i hi
  unfold diamondGlyph
  dsimp only
  split_ifs
  · exact tinted_one_visible _ hmi
  · exact tinted_one_visible _ (goMod_lenColors_range _ (by omega))

/-- The printed width of a diamond row after the margin: one character for each
padding piece, two for each glyph piece. -/
theorem rowWidth_diamondBody (i : Int) (hi : 0 ≤ i) :
    rowWidth (diamondPad i ++ diamondGlyphs i)
      = (diamondPad i).length + 2 * (diamondGlyphs i).length := by
  have hpad : (diamondPad i).map Piece.visible = List.replicate (diamondPad i).length 1 := by
    apply List.eq_replicate_iff.2
    refine ⟨by simp, ?_⟩
    intro b hb
    obtain ⟨p, hp, rfl⟩ := List.mem_map.1 hb
    rw [diamondPad, List.mem_replicate] at hp
    rw [hp.2]
    decide
  have hgl : (diamondGlyphs i).map Piece.visible = List.replicate (diamondGlyphs i).length 2 := by
    apply List.eq_replicate_iff.2
    refine ⟨by simp, ?_⟩
    intro b hb
    obtain ⟨p, hp, rfl⟩ := List.mem_map.1 hb
    rw [diamondGlyphs] at hp
    obtain ⟨o, _, rfl⟩ := List.mem_map.1 hp
    exact diamondGlyph_visible i _ hi
  unfold rowWidth
  rw [List.map_append, List.sum_append, hpad, hgl, List.sum_replicate, List.sum_replicate]
  simp only [smul_eq_mul, mul_one]
  omega

/-- The printed width of a diamond row: the five margin characters, then the
padding and the glyphs. -/
theorem rowWidth_diamondRow (i : Int) :
    rowWidth (diamondRow i) = 5 + rowWidth (diamondPad i ++ diamondGlyphs i) := by
  have hm : (Piece.plain "     ").visible = 5 := by decide
  unfold rowWidth diamondRow
  rw [List.map_cons, List.sum_cons, hm]

/-- C5 (diamond glyph count): on row `i` of the 20 rows the glyph loop prints
exactly `diamondSize - 2*|diamondSize/2 - i|` pieces, each a coloured `"1 "`; the
number is non-negative; the row is the margin, then exactly `|diamondSize/2 - i|`
single spaces, then the glyphs; and the count is largest, `diamondSize`, on the
middle row `i = diamondSize/2`. -/
theorem diamond_glyph_count (i : Int) (hi : 0 ≤ i ∧ i < diamondSize) :
    ((diamondGlyphs i).length : Int) = diamondSize - 2 * |diamondSize / 2 - i| ∧
    0 ≤ diamondSize - 2 * |diamondSize / 2 - i| ∧
    (∀ p ∈ diamondGlyphs i, ∃ idx, p = Piece.tinted idx "1 ") ∧
    diamondRow i =
      Piece.plain "     " ::
        (List.replicate (|diamondSize / 2 - i|).toNat (Piece.plain " ") ++ diamondGlyphs i) ∧
    ((diamondPad i).length : Int) = |diamondSize / 2 - i| ∧
    (diamondGlyphs i).length ≤ (diamondGlyphs (diamondSize / 2)).length ∧
    ((diamondGlyphs (diamondSize / 2)).length : Int) = diamondSize := by
  have hd : diamondSize = 20 := rfl
  have hi2 : 0 ≤ i ∧ i < 20 := hi
  have hhalf : diamondSize / 2 = 10 := by decide
  have hlen := diamondGlyphs_length i hi2
  have hmid := diamondGlyphs_length 10 (by decide)
  have habs : |(10 : Int) - 10| = 0 := by decide
  have hnn := ones_nonneg i hi2
  rw [ones_eq] at hnn
  rw [hhalf, hd]
  refine ⟨hlen, hnn, ?_, ?_, diamondPad_length i, ?_, ?_⟩
  · intro p hp
    rw [diamondGlyphs] at hp
    obtain ⟨o, _, rfl⟩ := List.mem_map.1 hp
    exact diamondGlyph_body i _
  · unfold diamondRow diamondPad
    rw [spaces_eq]
  · have h0 : (0 : Int) ≤ |10 - i| := abs_nonneg _
    omega
  · omega

theorem diamond_glyph_count_witness :
    ((diamondGlyphs 3).length : Int) = diamondSize - 2 * |diamondSize / 2 - 3| ∧
    0 ≤ diamondSize - 2 * |diamondSize / 2 - 3| ∧
    (∀ p ∈ diamondGlyphs 3, ∃ idx, p = Piece.tinted idx "1 ") ∧
    diamondRow 3 =
      Piece.plain "     " ::
        (List.replicate (|diamondSize / 2 - 3|).toNat (Piece.plain " ") ++ diamondGlyphs 3) ∧
    ((diamondPad 3).length : Int) = |diamondSize / 2 - 3| ∧
    (diamondGlyphs 3).length ≤ (diamondGlyphs (diamondSize / 2)).length ∧
    ((diamondGlyphs (diamondSize / 2)).length : Int) = diamondSize :=
  diamond_glyph_count 3 (by decide)

/-- C6, as stated, fails: rows 0 and 10 of the diamond have different printed
widths, 15 and 45 characters (10 and 40 after the margin); counting one per glyph
instead, padding plus glyphs is 10 on row 0 and 20 on row 10. -/
theorem diamond_width_differs :
    rowWidth (diamondRow 0) = 15 ∧ rowWidth (diamondRow 10) = 45 ∧
    rowWidth (diamondPad 0 ++ diamondGlyphs 0) = 10 ∧
    rowWidth (diamondPad 10 ++ diamondGlyphs 10) = 40 ∧
    (diamondPad 0).length + (diamondGlyphs 0).length = 10 ∧
    (diamondPad 10).length + (diamondGlyphs 10).length = 20 := by
  decide

/-- C6, amended: on row `i` of the 20 rows the printed width after the margin is
`|10 - i|` padding spaces plus two characters for each of the `20 - 2*|10 - i|`
glyphs, `40 - 3*|10 - i|` in all (`45 - 3*|10 - i|` with the 5 margin
characters); two rows have the same width exactly when they are equally far from
the middle row; what is the same on every row is twice the padding plus the glyph
count, `diamondSize`. -/
theorem diamond_width (i k : Int) (hi : 0 ≤ i ∧ i < diamondSize)
    (hk : 0 ≤ k ∧ k < diamondSize) :
    (rowWidth (diamondPad i ++ diamondGlyphs i) : Int)
      = |10 - i| + 2 * (20 - 2 * |10 - i|) ∧
    (rowWidth (diamondPad i ++ diamondGlyphs i) : Int) = 40 - 3 * |10 - i| ∧
    (rowWidth (diamondRow i) : Int) = 45 - 3 * |10 - i| ∧
    (rowWidth (diamondRow i) = rowWidth (diamondRow k) ↔ |10 - i| = |10 - k|) ∧
    (2 * (diamondPad i).length + (diamondGlyphs i).length : Int) = diamondSize := by
  have hd : diamondSize = 20 := rfl
  have hbi := rowWidth_diamondBody i hi.1
  have hbk := rowWidth_diamondBody k hk.1
  have hwi := rowWidth_diamondRow i
  have hwk := rowWidth_diamondRow k
  have hpi := diamondPad_length i
  have hpk := diamondPad_length k
  have hgi := diamondGlyphs_length i hi
  have hgk := diamondGlyphs_length k hk
  refine ⟨by omega, by omega, by omega, ?_, by omega⟩
  constructor
  · intro h
    omega
  · intro h
    omega

theorem diamond_width_witness :
    (rowWidth (diamondPad 3 ++ diamondGlyphs 3) : Int)
      = |10 - 3| + 2 * (20 - 2 * |10 - 3|) ∧
    (rowWidth (diamondPad 3 ++ diamondGlyphs 3) : Int) = 40 - 3 * |10 - 3| ∧
    (rowWidth (diamondRow 3) : Int) = 45 - 3 * |10 - 3| ∧
    (rowWidth (diamondRow 3) = rowWidth (diamondRow 17) ↔ |(10 : Int) - 3| = |10 - 17|) ∧
    (2 * (diamondPad 3).length + (diamondGlyphs 3).length : Int) = diamondSize :=
  diamond_width 3 17 (by decide) (by decide)

/-! ## Checkerboard -/

/-- C7 (checkerboard parity): on the 15 x 50 board the piece of cell `(i, j)` has
palette index `i mod 8` when `i + j` is even and `(i+1) mod 8` when it is odd;
the two indices are adjacent in the palette and distinct, and so are the two
colour strings; and the cells `(i, j)` and `(i+1, j+1)` have the same parity of
the index sum and take the same branch of the test of line 249. -/
theorem checkerboard_parity (i j : Int) (hi : 0 ≤ i ∧ i < 15) (hj : 0 ≤ j ∧ j < 50) :
    ((i + j) % 2 = 0 → checkerCell i j = Piece.tinted (i % 8) "11") ∧
    ((i + j) % 2 = 1 → checkerCell i j = Piece.tinted ((i + 1) % 8) "11") ∧
    (i + 1) % 8 = (i % 8 + 1) % 8 ∧
    i % 8 ≠ (i + 1) % 8 ∧
    colorAt (i % 8) ≠ colorAt ((i + 1) % 8) ∧
    (i + j) % 2 = ((i + 1) + (j + 1)) % 2 ∧
    (goMod (i + j) 2 = 0 ↔ goMod ((i + 1) + (j + 1)) 2 = 0) := by
  have e1 : goMod (i + j) 2 = (i + j) % 2 := goMod_of_nonneg _ 2 (by omega) (by decide)
  have e2 : goMod ((i + 1) + (j + 1)) 2 = ((i + 1) + (j + 1)) % 2 :=
    goMod_of_nonneg _ 2 (by omega) (by decide)
  have e3 : goMod i lenColors = i % 8 := by
    rw [lenColors_eq]; exact goMod_of_nonneg _ 8 hi.1 (by decide)
  have e4 : goMod (i + 1) lenColors = (i + 1) % 8 := by
    rw [lenColors_eq]; exact goMod_of_nonneg _ 8 (by omega) (by decide)
  refine ⟨?_, ?_, by omega, by omega, ?_, by omega, ?_⟩
  · intro h
    unfold checkerCell
    rw [e1, if_pos h, e3]
  · intro h
    unfold checkerCell
    rw [e1, if_neg (by omega), e4]
  · obtain ⟨h0, h15⟩ := hi
    interval_cases i <;> decide
  · rw [e1, e2]
    omega

theorem checkerboard_parity_witness :
    (((3 : Int) + 4) % 2 = 0 → checkerCell 3 4 = Piece.tinted (3 % 8) "11") ∧
    (((3 : Int) + 4) % 2 = 1 → checkerCell 3 4 = Piece.tinted ((3 + 1) % 8) "11") ∧
    ((3 : Int) + 1) % 8 = (3 % 8 + 1) % 8 ∧
    (3 : Int) % 8 ≠ (3 + 1) % 8 ∧
    colorAt (3 % 8) ≠ colorAt ((3 + 1) % 8) ∧
    ((3 : Int) + 4) % 2 = ((3 + 1) + (4 + 1)) % 2 ∧
    (goMod (3 + 4) 2 = 0 ↔ goMod ((3 + 1) + (4 + 1)) 2 = 0) :=
  checkerboard_parity 3 4 (by decide) (by decide)

/-! ## Glyph tiers of the letter shape -/

theorem glyphs_not_blank :
    solidBlock ≠ " " ∧ mediumShade ≠ " " ∧ lightShade ≠ " " := by decide

theorem shadeAs_glyph_cases (s : Shape) (row col : Int) (hs : s ≠ Shape.background) :
    (shadeAs s row col).1 = solidBlock ∨ (shadeAs s row col).1 = mediumShade ∨
      (shadeAs s row col).1 = lightShade := by
  cases s
  · simp only [shadeAs, leftPillarShade]
    split_ifs <;> simp
  · simp only [shadeAs, rightPillarShade]
    split_ifs <;> simp
  · simp only [shadeAs, leftDiagShade]
    split_ifs <;> simp
  · simp only [shadeAs, rightDiagShade]
    split_ifs <;> simp
  · exact absurd rfl hs

theorem shade_glyph_cases (row col : Int) (hs : shapeOf row col ≠ Shape.background) :
    (shade row col).1 = solidBlock ∨ (shade row col).1 = mediumShade ∨
      (shade row col).1 = lightShade := by
  rw [shade_eq_shadeAs]
  exact shadeAs_glyph_cases _ row col hs

theorem shade_glyph_ne_blank (row col : Int) (hs : shapeOf row col ≠ Shape.background) :
    (shade row col).1 ≠ " " := by
  obtain ⟨h1, h2, h3⟩ := glyphs_not_blank
  rcases shade_glyph_cases row col hs with h | h | h <;> rw [h] <;> assumption

theorem shade_background (row col : Int) (hs : shapeOf row col = Shape.background) :
    shade row col = (" ", 0) := by
  rw [shade_eq_shadeAs, hs]
  rfl

/-- A cell of a shape that the sparkle does not replace prints its glyph in its
colour. -/
theorem cell_of_shape (row col : Int) (hs : shapeOf row col ≠ Shape.background)
    (hsp : sparkle row col = false) :
    cell row col = Piece.tinted (shade row col).2 (shade row col).1 := by
  unfold cell
  rw [hsp, if_neg (by decide), if_pos (shade_glyph_ne_blank row col hs)]

theorem shapeOf_leftPillar (row col : Int) (h : shapeOf row col = Shape.leftPillar) :
    0 ≤ col ∧ col ≤ 8 := by
  rw [← leftPillar_iff]
  unfold shapeOf at h
  by_contra hc
  rw [if_neg hc] at h
  split_ifs at h

theorem shapeOf_rightPillar (row col : Int) (h : shapeOf row col = Shape.rightPillar) :
    111 ≤ col ∧ col ≤ 119 := by
  rw [← rightPillar_iff]
  unfold shapeOf at h
  by_contra hc
  rw [if_neg hc] at h
  split_ifs at h

/-- C8, as stated, fails: the cell at row 10, column 18 is on the grid, takes the
left-diagonal branch, is not replaced by the sparkle and has depth 2, yet its
glyph is the medium shade, not the solid block. -/
theorem solid_tier_fails_on_diagonal :
    (0 : Int) ≤ 10 ∧ (10 : Int) < height ∧ (0 : Int) ≤ 18 ∧ (18 : Int) < width ∧
    shapeOf 10 18 = Shape.leftDiagonal ∧ sparkle 10 18 = false ∧
    depthAs (shapeOf 10 18) 10 18 = 2 ∧
    cell 10 18 = Piece.tinted 4 mediumShade ∧ mediumShade ≠ solidBlock := by
  decide!

/-- C8, amended: for a cell of the grid that takes a shape branch and is not
replaced by the sparkle, the piece printed is the branch's glyph in the branch's
colour; on a pillar, depth below 3 gives the solid block; on a diagonal the glyph
is the solid block exactly when the depth is 0, and depth 1 or 2 gives the medium
shade. -/
theorem solid_block_tier (row col : Int)
    (_hrow : 0 ≤ row ∧ row < height) (_hcol : 0 ≤ col ∧ col < width)
    (hs : shapeOf row col ≠ Shape.background) (hsp : sparkle row col = false) :
    cell row col = Piece.tinted (shade row col).2 (shade row col).1 ∧
    ((shapeOf row col = Shape.leftPillar ∨ shapeOf row col = Shape.rightPillar) →
      depthAs (shapeOf row col) row col < 3 → (shade row col).1 = solidBlock) ∧
    ((shapeOf row col = Shape.leftDiagonal ∨ shapeOf row col = Shape.rightDiagonal) →
      ((shade row col).1 = solidBlock ↔ depthAs (shapeOf row col) row col = 0) ∧
      (1 ≤ depthAs (shapeOf row col) row col ∧ depthAs (shapeOf row col) row col ≤ 2 →
        (shade row col).1 = mediumShade)) := by
  have hne : mediumShade ≠ solidBlock ∧ lightShade ≠ solidBlock := by decide
  refine ⟨cell_of_shape row col hs hsp, ?_, ?_⟩
  · intro hp hd
    rw [shade_eq_shadeAs]
    rcases hp with hp | hp <;> rw [hp] at hd ⊢
    · simp only [depthAs] at hd
      simp only [shadeAs, leftPillarShade, if_pos hd]
    · simp only [depthAs] at hd
      simp only [shadeAs, rightPillarShade, if_pos hd]
  · intro hp
    rw [shade_eq_shadeAs]
    rcases hp with hp | hp <;> rw [hp] <;> simp only [depthAs, shadeAs]
    · unfold leftDiagShade
      dsimp only
      refine ⟨?_, fun hd => ?_⟩
      · split_ifs with h0 h2
        · exact ⟨fun _ => h0, fun _ => rfl⟩
        · exact ⟨fun h => absurd h hne.1, fun h => absurd h h0⟩
        · exact ⟨fun h => absurd h hne.2, fun h => absurd h h0⟩
      · rw [if_neg (by omega), if_pos hd.2]
    · unfold rightDiagShade
      dsimp only
      refine ⟨?_, fun hd => ?_⟩
      · split_ifs with h0 h2
        · exact ⟨fun _ => h0, fun _ => rfl⟩
        · exact ⟨fun h => absurd h hne.1, fun h => absurd h h0⟩
        · exact ⟨fun h => absurd h hne.2, fun h => absurd h h0⟩
      · rw [if_neg (by omega), if_pos hd.2]

theorem solid_block_tier_witness :
    cell 10 18 = Piece.tinted (shade 10 18).2 (shade 10 18).1 ∧
    ((shapeOf 10 18 = Shape.leftPillar ∨ shapeOf 10 18 = Shape.rightPillar) →
      depthAs (shapeOf 10 18) 10 18 < 3 → (shade 10 18).1 = solidBlock) ∧
    ((shapeOf 10 18 = Shape.leftDiagonal ∨ shapeOf 10 18 = Shape.rightDiagonal) →
      ((shade 10 18).1 = solidBlock ↔ depthAs (shapeOf 10 18) 10 18 = 0) ∧
      (1 ≤ depthAs (shapeOf 10 18) 10 18 ∧ depthAs (shapeOf 10 18) 10 18 ≤ 2 →
        (shade 10 18).1 = mediumShade)) :=
  solid_block_tier 10 18 (by decide) (by decide) (by decide!) (by decide!)

/-- C9, as stated, fails: at column 6 (left pillar, depth 6, no sparkle on rows 0
and 1) the glyph is the solid block on row 0 and the medium shade on row 1: it
depends on the row, and it is not the light shade. -/
theorem pillar_depth6_not_light :
    shapeOf 0 6 = Shape.leftPillar ∧ shapeOf 1 6 = Shape.leftPillar ∧
    sparkle 0 6 = false ∧ sparkle 1 6 = false ∧
    depthAs (shapeOf 0 6) 0 6 = 6 ∧ depthAs (shapeOf 1 6) 1 6 = 6 ∧
    cell 0 6 = Piece.tinted 6 solidBlock ∧ cell 1 6 = Piece.tinted 6 mediumShade ∧
    solidBlock ≠ lightShade ∧ mediumShade ≠ lightShade ∧ solidBlock ≠ mediumShade := by
  decide!

/-- C9, amended: for a cell of the grid that takes a pillar branch and is not
replaced by the sparkle, the piece printed is the branch's glyph in the branch's
colour; the depth is between 0 and 8; depth 3, 4 or 5 gives the medium shade on
every row; depth 6, 7 or 8 gives the solid block on even rows and the medium
shade on odd rows; no pillar cell has the light shade. -/
theorem pillar_shading (row col : Int)
    (hrow : 0 ≤ row ∧ row < height) (_hcol : 0 ≤ col ∧ col < width)
    (hs : shapeOf row col = Shape.leftPillar ∨ shapeOf row col = Shape.rightPillar)
    (hsp : sparkle row col = false) :
    cell row col = Piece.tinted (shade row col).2 (shade row col).1 ∧
    (0 ≤ depthAs (shapeOf row col) row col ∧ depthAs (shapeOf row col) row col ≤ 8) ∧
    (3 ≤ depthAs (shapeOf row col) row col ∧ depthAs (shapeOf row col) row col < 6 →
      (shade row col).1 = mediumShade) ∧
    (6 ≤ depthAs (shapeOf row col) row col → row % 2 = 0 →
      (shade row col).1 = solidBlock) ∧
    (6 ≤ depthAs (shapeOf row col) row col → row % 2 = 1 →
      (shade row col).1 = mediumShade) ∧
    (shade row col).1 ≠ lightShade := by
  have hne : solidBlock ≠ lightShade ∧ mediumShade ≠ lightShade := by decide
  have e2 : goMod row 2 = row % 2 := goMod_of_nonneg _ 2 hrow.1 (by decide)
  have hsb : shapeOf row col ≠ Shape.background := by
    rcases hs with h | h <;> rw [h] <;> decide
  refine ⟨cell_of_shape row col hsb hsp, ?_⟩
  rw [shade_eq_shadeAs]
  rcases hs with h | h
  · have hc := shapeOf_leftPillar row col h
    rw [h]
    simp only [depthAs, shadeAs, leftPillarShade, leftPillarDepth, e2]
    refine ⟨hc, fun hd => ?_, fun hd hr => ?_, fun hd hr => ?_, ?_⟩
    · rw [if_neg (by omega), if_pos hd.2]
    · rw [if_neg (by omega), if_neg (by omega), if_pos hr]
    · rw [if_neg (by omega), if_neg (by omega), if_neg (by omega)]
    · split_ifs
      · exact hne.1
      · exact hne.2
      · exact hne.1
      · exact hne.2
  · have hc := shapeOf_rightPillar row col h
    have w : width = 120 := rfl
    rw [h]
    simp only [depthAs, shadeAs, rightPillarShade, rightPillarDepth, e2, w]
    refine ⟨by omega, fun hd => ?_, fun hd hr => ?_, fun hd hr => ?_, ?_⟩
    · rw [if_neg (by omega), if_pos hd.2]
    · rw [if_neg (by omega), if_neg (by omega), if_pos hr]
    · rw [if_neg (by omega), if_neg (by omega), if_neg (by omega)]
    · split_ifs
      · exact hne.1
      · exact hne.2
      · exact hne.1
      · exact hne.2

theorem pillar_shading_witness :
    cell 1 6 = Piece.tinted (shade 1 6).2 (shade 1 6).1 ∧
    (0 ≤ depthAs (shapeOf 1 6) 1 6 ∧ depthAs (shapeOf 1 6) 1 6 ≤ 8) ∧
    (3 ≤ depthAs (shapeOf 1 6) 1 6 ∧ depthAs (shapeOf 1 6) 1 6 < 6 →
      (shade 1 6).1 = mediumShade) ∧
    (6 ≤ depthAs (shapeOf 1 6) 1 6 → (1 : Int) % 2 = 0 → (shade 1 6).1 = solidBlock) ∧
    (6 ≤ depthAs (shapeOf 1 6) 1 6 → (1 : Int) % 2 = 1 → (shade 1 6).1 = mediumShade) ∧
    (shade 1 6).1 ≠ lightShade :=
  pillar_shading 1 6 (by decide) (by decide) (Or.inl (by decide!)) (by decide!)

/-! ## Sparkle overlay -/

theorem shapeOf_background_iff (row col : Int) :
    shapeOf row col = Shape.background ↔
      ¬ (leftPillar col = true ∨ rightPillar col = true ∨ leftDiagonal row col = true ∨
        rightDiagonal row col = true) := by
  unfold shapeOf
  cases leftPillar col <;> cases rightPillar col <;> cases leftDiagonal row col <;>
    cases rightDiagonal row col <;> simp

theorem sparkle_iff (row col : Int) (hrow : 0 ≤ row) (hcol : 0 ≤ col) :
    sparkle row col = true ↔
      (leftPillar col = true ∨ rightPillar col = true ∨ leftDiagonal row col = true ∨
        rightDiagonal row col = true) ∧ row % 7 = col % 7 := by
  unfold sparkle
  rw [goMod_of_nonneg row 7 hrow (by decide), goMod_of_nonneg col 7 hcol (by decide)]
  simp only [Bool.and_eq_true, Bool.or_eq_true, decide_eq_true_eq, or_assoc]

/-- The text of a shade glyph in a palette colour is never the sparkle text. -/
theorem tinted_text_ne_sparkle (k : Int) (g : String) (hk : 0 ≤ k ∧ k < lenColors)
    (hg : g = solidBlock ∨ g = mediumShade ∨ g = lightShade) :
    (Piece.tinted k g).text ≠ (Piece.tinted 5 sparkleMark).text := by
  rw [lenColors_eq] at hk
  obtain ⟨h0, h8⟩ := hk
  rcases hg with rfl | rfl | rfl <;> interval_cases k <;> decide

/-- C10 (sparkle overlay): for every cell of the 60 x 120 grid the text written
is the sparkle text (palette colour 5, the marker, the reset) exactly when the
cell passes at least one of the four membership tests and `row mod 7 = col mod 7`;
in that case the piece printed is the marker in colour 5 and not the shape's own
glyph and colour; and a cell that passes none of the tests never writes the
sparkle text. -/
theorem sparkle_overlay (row col : Int)
    (hrow : 0 ≤ row ∧ row < height) (hcol : 0 ≤ col ∧ col < width) :
    (Piece.tinted 5 sparkleMark).text = some ("\x1b[38;5;226m" ++ "✦" ++ "\x1b[0m") ∧
    (cellText row col = (Piece.tinted 5 sparkleMark).text ↔
      (leftPillar col = true ∨ rightPillar col = true ∨ leftDiagonal row col = true ∨
        rightDiagonal row col = true) ∧ row % 7 = col % 7) ∧
    ((leftPillar col = true ∨ rightPillar col = true ∨ leftDiagonal row col = true ∨
        rightDiagonal row col = true) ∧ row % 7 = col % 7 →
      cell row col = Piece.tinted 5 sparkleMark ∧
      cell row col ≠ Piece.tinted (shade row col).2 (shade row col).1 ∧
      cellText row col ≠ (Piece.tinted (shade row col).2 (shade row col).1).text) ∧
    (shapeOf row col = Shape.background →
      cellText row col ≠ (Piece.tinted 5 sparkleMark).text) := by
  have hsi := sparkle_iff row col hrow.1 hcol.1
  have hbg := shapeOf_background_iff row col
  have hidx := shade_index_range row col hrow.1 hcol
  have hon : sparkle row col = true → cell row col = Piece.tinted 5 sparkleMark := by
    intro h
    unfold cell
    rw [if_pos h]
  have hoff : sparkle row col = false →
      cellText row col ≠ (Piece.tinted 5 sparkleMark).text := by
    intro h
    unfold cellText
    by_cases hs : shapeOf row col = Shape.background
    · unfold cell
      rw [h, if_neg (by decide), shade_background row col hs]
      split_ifs
      · exact absurd rfl ‹_›
      · decide
      · decide
    · rw [cell_of_shape row col hs h]
      exact tinted_text_ne_sparkle _ _ hidx (shade_glyph_cases row col hs)
  have hiff : cellText row col = (Piece.tinted 5 sparkleMark).text ↔
      sparkle row col = true := by
    constructor
    · intro h
      by_contra hc
      exact hoff (by simpa using hc) h
    · intro h
      unfold cellText
      rw [hon h]
  refine ⟨by decide, hiff.trans hsi, ?_, ?_⟩
  · intro h
    have hsp := hsi.2 h
    have hs : shapeOf row col ≠ Shape.background := fun hb => (hbg.1 hb) h.1
    have hne := tinted_text_ne_sparkle _ _ hidx (shade_glyph_cases row col hs)
    refine ⟨hon hsp, ?_, ?_⟩
    · rw [hon hsp]
      intro he
      apply hne
      rw [← he]
    · unfold cellText
      rw [hon hsp]
      exact fun he => hne he.symm
  · intro hb
    apply hoff
    have hns : ¬ sparkle row col = true := fun h => (hbg.1 hb) (hsi.1 h).1
    simpa using hns

theorem sparkle_overlay_witness :
    (Piece.tinted 5 sparkleMark).text = some ("\x1b[38;5;226m" ++ "✦" ++ "\x1b[0m") ∧
    (cellText 9 2 = (Piece.tinted 5 sparkleMark).text ↔
      (leftPillar 2 = true ∨ rightPillar 2 = true ∨ leftDiagonal 9 2 = true ∨
        rightDiagonal 9 2 = true) ∧ (9 : Int) % 7 = 2 % 7) ∧
    ((leftPillar 2 = true ∨ rightPillar 2 = true ∨ leftDiagonal 9 2 = true ∨
        rightDiagonal 9 2 = true) ∧ (9 : Int) % 7 = 2 % 7 →
      cell 9 2 = Piece.tinted 5 sparkleMark ∧
      cell 9 2 ≠ Piece.tinted (shade 9 2).2 (shade 9 2).1 ∧
      cellText 9 2 ≠ (Piece.tinted (shade 9 2).2 (shade 9 2).1).text) ∧
    (shapeOf 9 2 = Shape.background →
      cellText 9 2 ≠ (Piece.tinted 5 sparkleMark).text) :=
  sparkle_overlay 9 2 (by decide) (by decide)

/-! ## Spiral -/

/-- C1, evaluated on the code: the grid has 30 rows, and the walk of `size*size`
steps does not produce a grid: it ends in the index-out-of-range panic, so no
cell is stamped at all. -/
theorem spiral_walk_panics :
    blankGrid.length = 30 ∧ (size * size).toNat = 900 ∧ spiralWalk = none := by
  decide

/-- C2, evaluated on the code: at step 0 the cursor is `(15, 15)`, the in-bounds
guard holds, and both write indices are 30, which is not below `size = 30`; the
guarded assignment panics for whatever value is written, and so does the step. -/
theorem spiral_first_write_out_of_range :
    cursorAt 0 = ⟨15, 15, 0, -1⟩ ∧
    inBounds (cursorAt 0).x (cursorAt 0).y = true ∧
    (cursorAt 0).y + goDiv size 2 = 30 ∧ (cursorAt 0).x + goDiv size 2 = 30 ∧
    ¬ ((30 : Int) < size) ∧
    (∀ v, gridSet blankGrid 30 30 v = none) ∧
    spiralStep 0 blankGrid startCursor = none := by
  refine ⟨by decide, by decide, by decide, by decide, by decide, ?_, by decide⟩
  intro v
  unfold gridSet
  rw [if_neg (by decide)]

/-! ## Background texture -/

/-- The text of a glyph (shade or sparkle) in a palette colour is neither the
single space nor the dim dot. -/
theorem tinted_text_ne_background (k : Int) (g : String) (hk : 0 ≤ k ∧ k < lenColors)
    (hg : g = solidBlock ∨ g = mediumShade ∨ g = lightShade ∨ g = sparkleMark) :
    (Piece.tinted k g).text ≠ some " " ∧
    (Piece.tinted k g).text ≠ some "\x1b[38;5;236m·\x1b[0m" := by
  rw [lenColors_eq] at hk
  obtain ⟨h0, h8⟩ := hk
  rcases hg with rfl | rfl | rfl | rfl <;> interval_cases k <;> decide

/-- The piece of a cell that takes no shape branch: the dot or the space. -/
theorem cell_of_background (row col : Int) (hs : shapeOf row col = Shape.background) :
    cell row col =
      if goMod row 3 = 0 ∧ goMod col 6 = 0 then Piece.plain "\x1b[38;5;236m·\x1b[0m"
      else Piece.plain " " := by
  have hns : sparkle row col = false := by
    have h := (shapeOf_background_iff row col).1 hs
    unfold sparkle
    cases h1 : leftPillar col <;> cases h2 : rightPillar col <;>
      cases h3 : leftDiagonal row col <;> cases h4 : rightDiagonal row col <;>
      simp_all
  unfold cell
  rw [hns, if_neg (by decide), shade_background row col hs, if_neg (by simp)]

/-- C11 (background texture): for every cell of the 60 x 120 grid, the piece
printed is the single space or the dim dot exactly when the cell passes none of
the four membership tests, and the same holds of the text written; among those
cells the dot is printed exactly when `row mod 3 = 0` and `col mod 6 = 0`, and
the single space otherwise; a cell that passes one of the tests ends the chain
with `char` different from `" "` and prints neither the space nor the dot. -/
theorem background_texture (row col : Int)
    (hrow : 0 ≤ row ∧ row < height) (hcol : 0 ≤ col ∧ col < width) :
    ((cell row col = Piece.plain " " ∨
        cell row col = Piece.plain "\x1b[38;5;236m·\x1b[0m") ↔
      ¬ (leftPillar col = true ∨ rightPillar col = true ∨ leftDiagonal row col = true ∨
        rightDiagonal row col = true)) ∧
    ((cellText row col = some " " ∨ cellText row col = some "\x1b[38;5;236m·\x1b[0m") ↔
      ¬ (leftPillar col = true ∨ rightPillar col = true ∨ leftDiagonal row col = true ∨
        rightDiagonal row col = true)) ∧
    (¬ (leftPillar col = true ∨ rightPillar col = true ∨ leftDiagonal row col = true ∨
        rightDiagonal row col = true) →
      (cell row col = Piece.plain "\x1b[38;5;236m·\x1b[0m" ↔
        row % 3 = 0 ∧ col % 6 = 0) ∧
      (cell row col = Piece.plain " " ↔ ¬ (row % 3 = 0 ∧ col % 6 = 0))) ∧
    ((leftPillar col = true ∨ rightPillar col = true ∨ leftDiagonal row col = true ∨
        rightDiagonal row col = true) →
      (shade row col).1 ≠ " " ∧ cell row col ≠ Piece.plain " " ∧
      cell row col ≠ Piece.plain "\x1b[38;5;236m·\x1b[0m") := by
  have hbg := shapeOf_background_iff row col
  have hidx := shade_index_range row col hrow.1 hcol
  have e3 : goMod row 3 = row % 3 := goMod_of_nonneg _ 3 hrow.1 (by decide)
  have e6 : goMod col 6 = col % 6 := goMod_of_nonneg _ 6 hcol.1 (by decide)
  have hdot : Piece.plain "\x1b[38;5;236m·\x1b[0m" ≠ Piece.plain " " := by decide
  -- a cell of a shape prints a glyph in a palette colour
  have hshape : shapeOf row col ≠ Shape.background →
      ∃ k g, cell row col = Piece.tinted k g ∧ (0 ≤ k ∧ k < lenColors) ∧
        (g = solidBlock ∨ g = mediumShade ∨ g = lightShade ∨ g = sparkleMark) := by
    intro hs
    cases hsp : sparkle row col
    · refine ⟨_, _, cell_of_shape row col hs hsp, hidx, ?_⟩
      rcases shade_glyph_cases row col hs with h | h | h
      · exact Or.inl h
      · exact Or.inr (Or.inl h)
      · exact Or.inr (Or.inr (Or.inl h))
    · refine ⟨5, sparkleMark, ?_, by decide, Or.inr (Or.inr (Or.inr rfl))⟩
      unfold cell
      rw [if_pos hsp]
  have hback : shapeOf row col = Shape.background →
      (cell row col = Piece.plain "\x1b[38;5;236m·\x1b[0m" ↔ row % 3 = 0 ∧ col % 6 = 0) ∧
      (cell row col = Piece.plain " " ↔ ¬ (row % 3 = 0 ∧ col % 6 = 0)) := by
    intro hs
    rw [cell_of_background row col hs, e3, e6]
    by_cases hc : row % 3 = 0 ∧ col % 6 = 0
    · rw [if_pos hc]
      exact ⟨⟨fun _ => hc, fun _ => rfl⟩, ⟨fun h => absurd h hdot, fun h => absurd hc h⟩⟩
    · rw [if_neg hc]
      exact ⟨⟨fun h => absurd h.symm hdot, fun h => absurd h hc⟩, ⟨fun _ => hc, fun _ => rfl⟩⟩
  refine ⟨?_, ?_, fun hn => hback (hbg.2 hn), ?_⟩
  · rw [← hbg]
    constructor
    · intro h
      by_contra hs
      obtain ⟨k, g, hk, -, -⟩ := hshape hs
      rw [hk] at h
      rcases h with h | h <;> exact Piece.noConfusion h
    · intro hs
      by_cases hc : row % 3 = 0 ∧ col % 6 = 0
      · exact Or.inr ((hback hs).1.2 hc)
      · exact Or.inl ((hback hs).2.2 hc)
  · rw [← hbg]
    unfold cellText
    constructor
    · intro h
      by_contra hs
      obtain ⟨k, g, hk, hr, hg⟩ := hshape hs
      rw [hk] at h
      have hne := tinted_text_ne_background k g hr hg
      rcases h with h | h
      · exact hne.1 h
      · exact hne.2 h
    · intro hs
      by_cases hc : row % 3 = 0 ∧ col % 6 = 0
      · rw [(hback hs).1.2 hc]
        exact Or.inr rfl
      · rw [(hback hs).2.2 hc]
        exact Or.inl rfl
  · intro hin
    have hs : shapeOf row col ≠ Shape.background := fun hb => (hbg.1 hb) hin
    obtain ⟨k, g, hk, -, -⟩ := hshape hs
    refine ⟨shade_glyph_ne_blank row col hs, ?_, ?_⟩ <;> rw [hk] <;>
      exact fun h => Piece.noConfusion h

theorem background_texture_witness :
    ((cell 3 30 = Piece.plain " " ∨
        cell 3 30 = Piece.plain "\x1b[38;5;236m·\x1b[0m") ↔
      ¬ (leftPillar 30 = true ∨ rightPillar 30 = true ∨ leftDiagonal 3 30 = true ∨
        rightDiagonal 3 30 = true)) ∧
    ((cellText 3 30 = some " " ∨ cellText 3 30 = some "\x1b[38;5;236m·\x1b[0m") ↔
      ¬ (leftPillar 30 = true ∨ rightPillar 30 = true ∨ leftDiagonal 3 30 = true ∨
        rightDiagonal 3 30 = true)) ∧
    (¬ (leftPillar 30 = true ∨ rightPillar 30 = true ∨ leftDiagonal 3 30 = true ∨
        rightDiagonal 3 30 = true) →
      (cell 3 30 = Piece.plain "\x1b[38;5;236m·\x1b[0m" ↔
        (3 : Int) % 3 = 0 ∧ (30 : Int) % 6 = 0) ∧
      (cell 3 30 = Piece.plain " " ↔ ¬ ((3 : Int) % 3 = 0 ∧ (30 : Int) % 6 = 0))) ∧
    ((leftPillar 30 = true ∨ rightPillar 30 = true ∨ leftDiagonal 3 30 = true ∨
        rightDiagonal 3 30 = true) →
      (shade 3 30).1 ≠ " " ∧ cell 3 30 ≠ Piece.plain " " ∧
      cell 3 30 ≠ Piece.plain "\x1b[38;5;236m·\x1b[0m") :=
  background_texture 3 30 (by decide) (by decide)

/-! ## Diagonals: mirror, depth -/

/-- C12, as stated, fails: on row 1 the right-diagonal test holds at column 106,
but the left-diagonal test does not hold at the mirrored column
`W - 1 - 106 = 13`. -/
theorem right_diagonal_not_mirror :
    (0 : Int) ≤ 1 ∧ (1 : Int) < goDiv height 2 ∧ (0 : Int) ≤ 106 ∧ (106 : Int) < width ∧
    width - 1 - 106 = 13 ∧
    rightDiagonal 1 106 = true ∧ leftDiagonal 1 (width - 1 - 106) = false := by
  decide!

/-- C12, amended: for a row of the top half and a column of the grid, the
right-diagonal test is the left-diagonal test at the mirrored column `W-1-col`
when the row is a multiple of 5, and the left-diagonal test at the column
`W-2-col`, the mirror moved by one, when it is not. -/
theorem right_diagonal_mirror (row col : Int)
    (hrow : 0 ≤ row ∧ row < goDiv height 2) (_hcol : 0 ≤ col ∧ col < width) :
    (row % 5 = 0 →
      (rightDiagonal row col = true ↔ leftDiagonal row (width - 1 - col) = true)) ∧
    (row % 5 ≠ 0 →
      (rightDiagonal row col = true ↔ leftDiagonal row (width - 2 - col) = true)) := by
  have w : width = 120 := rfl
  rw [half_height] at hrow
  rw [rightDiagonal_iff row col (by omega), leftDiagonal_iff row _ hrow.1,
    leftDiagonal_iff row _ hrow.1, w]
  have h5 : row % 5 = 0 ∨ row % 5 = 1 ∨ row % 5 = 2 ∨ row % 5 = 3 ∨ row % 5 = 4 := by
    omega
  constructor
  · intro h0
    omega
  · intro h0
    rcases h5 with h | h | h | h | h <;> omega

theorem right_diagonal_mirror_witness :
    ((7 : Int) % 5 = 0 →
      (rightDiagonal 7 103 = true ↔ leftDiagonal 7 (width - 1 - 103) = true)) ∧
    ((7 : Int) % 5 ≠ 0 →
      (rightDiagonal 7 103 = true ↔ leftDiagonal 7 (width - 2 - 103) = true)) :=
  right_diagonal_mirror 7 103 (by decide) (by decide)

/-- C13, as stated, fails: on row 1 column 9 passes the left-diagonal test and
`leftDiagDepth` is 0, while the distance to the truncated centreline
`trunc(0.8) + 8 = 8` is 1; column 111 passes the right-diagonal test and
`rightDiagDepth` is 0, while the distance to `trunc(111 - 0.8) = 110` is 1. -/
theorem diagonal_depth_not_integer_distance :
    leftDiagonal 1 9 = true ∧ leftDiagDepth 1 9 = 0 ∧
    |(9 : Int) - (goInt (leftDiagSlope 1) + leftDiagStart)| = 1 ∧
    rightDiagonal 1 111 = true ∧ rightDiagDepth 1 111 = 0 ∧
    |(111 : Int) - goInt ((rightDiagStart : ℚ) - rightDiagSlope 1)| = 1 := by
  decide!

/-- C13, amended: for a row in `[0, 30)` and a column passing the diagonal test,
the depth is the truncated distance to the centreline before truncation
(`|5*col - 4*row - 40| / 5` on the left, `|5*col + 4*row - 555| / 5` on the
right, in whole-number division).  It is the distance to the truncated centreline
used for membership when the row is a multiple of 5 or the column is not to the
right of that centreline, and one less than that distance otherwise. -/
theorem diagonal_depth (row col : Int) (hrow : 0 ≤ row ∧ row < 30) :
    (leftDiagonal row col = true →
      leftDiagDepth row col = |5 * col - 4 * row - 40| / 5 ∧
      (row % 5 = 0 ∨ col ≤ goInt (leftDiagSlope row) + leftDiagStart →
        leftDiagDepth row col = |col - (goInt (leftDiagSlope row) + leftDiagStart)|) ∧
      (row % 5 ≠ 0 ∧ goInt (leftDiagSlope row) + leftDiagStart < col →
        leftDiagDepth row col
          = |col - (goInt (leftDiagSlope row) + leftDiagStart)| - 1)) ∧
    (rightDiagonal row col = true →
      rightDiagDepth row col = |5 * col + 4 * row - 555| / 5 ∧
      (row % 5 = 0 ∨ col ≤ goInt ((rightDiagStart : ℚ) - rightDiagSlope row) →
        rightDiagDepth row col
          = |col - goInt ((rightDiagStart : ℚ) - rightDiagSlope row)|) ∧
      (row % 5 ≠ 0 ∧ goInt ((rightDiagStart : ℚ) - rightDiagSlope row) < col →
        rightDiagDepth row col
          = |col - goInt ((rightDiagStart : ℚ) - rightDiagSlope row)| - 1)) := by
  rw [leftDiagDepth_eq, rightDiagDepth_eq, goInt_leftDiagSlope row hrow.1,
    goInt_rightCentre row (by omega)]
  unfold leftDiagStart
  have h5 : row % 5 = 0 ∨ row % 5 = 1 ∨ row % 5 = 2 ∨ row % 5 = 3 ∨ row % 5 = 4 := by
    omega
  constructor
  · intro _
    rcases abs_cases (5 * col - 4 * row - 40) with ⟨h1, h2⟩ | ⟨h1, h2⟩ <;>
      rcases abs_cases (col - (4 * row / 5 + 8)) with ⟨h3, h4⟩ | ⟨h3, h4⟩ <;>
      refine ⟨rfl, fun h => ?_, fun h => ?_⟩ <;>
      rcases h5 with h | h | h | h | h <;> omega
  · intro _
    rcases abs_cases (5 * col + 4 * row - 555) with ⟨h1, h2⟩ | ⟨h1, h2⟩ <;>
      rcases abs_cases (col - (555 - 4 * row) / 5) with ⟨h3, h4⟩ | ⟨h3, h4⟩ <;>
      refine ⟨rfl, fun h => ?_, fun h => ?_⟩ <;>
      rcases h5 with h | h | h | h | h <;> omega

theorem diagonal_depth_witness :
    (leftDiagonal 1 9 = true →
      leftDiagDepth 1 9 = |5 * 9 - 4 * 1 - 40| / 5 ∧
      ((1 : Int) % 5 = 0 ∨ 9 ≤ goInt (leftDiagSlope 1) + leftDiagStart →
        leftDiagDepth 1 9 = |9 - (goInt (leftDiagSlope 1) + leftDiagStart)|) ∧
      ((1 : Int) % 5 ≠ 0 ∧ goInt (leftDiagSlope 1) + leftDiagStart < 9 →
        leftDiagDepth 1 9 = |9 - (goInt (leftDiagSlope 1) + leftDiagStart)| - 1)) ∧
    (rightDiagonal 1 9 = true →
      rightDiagDepth 1 9 = |5 * 9 + 4 * 1 - 555| / 5 ∧
      ((1 : Int) % 5 = 0 ∨ 9 ≤ goInt ((rightDiagStart : ℚ) - rightDiagSlope 1) →
        rightDiagDepth 1 9 = |9 - goInt ((rightDiagStart : ℚ) - rightDiagSlope 1)|) ∧
      ((1 : Int) % 5 ≠ 0 ∧ goInt ((rightDiagStart : ℚ) - rightDiagSlope 1) < 9 →
        rightDiagDepth 1 9
          = |9 - goInt ((rightDiagStart : ℚ) - rightDiagSlope 1)| - 1)) :=
  diagonal_depth 1 9 (by decide)

/-- C16 (diagonal depth is bounded): for a row in `[0, 30)` and a column passing
the left (right) diagonal test, `leftDiagDepth` (`rightDiagDepth`) is between 0
and 4, `row/5` is between 0 and 5, and the operand `depth + row/5` of the colour
index is between 0 and 9. -/
theorem diagonal_depth_bounded (row col : Int) (hrow : 0 ≤ row ∧ row < 30) :
    (0 ≤ goDiv row 5 ∧ goDiv row 5 ≤ 5) ∧
    (leftDiagonal row col = true →
      (0 ≤ leftDiagDepth row col ∧ leftDiagDepth row col ≤ 4) ∧
      (0 ≤ leftDiagDepth row col + goDiv row 5 ∧
        leftDiagDepth row col + goDiv row 5 ≤ 4 + 5)) ∧
    (rightDiagonal row col = true →
      (0 ≤ rightDiagDepth row col ∧ rightDiagDepth row col ≤ 4) ∧
      (0 ≤ rightDiagDepth row col + goDiv row 5 ∧
        rightDiagDepth row col + goDiv row 5 ≤ 4 + 5)) := by
  rw [leftDiagDepth_eq, rightDiagDepth_eq, goDiv_of_nonneg row 5 hrow.1 (by decide),
    leftDiagonal_iff row col hrow.1, rightDiagonal_iff row col (by omega)]
  have h5 : row % 5 = 0 ∨ row % 5 = 1 ∨ row % 5 = 2 ∨ row % 5 = 3 ∨ row % 5 = 4 := by
    omega
  refine ⟨by omega, ?_, ?_⟩
  · intro h
    rcases abs_cases (5 * col - 4 * row - 40) with ⟨h1, h2⟩ | ⟨h1, h2⟩ <;>
      rcases h5 with h | h | h | h | h <;> omega
  · intro h
    rcases abs_cases (5 * col + 4 * row - 555) with ⟨h1, h2⟩ | ⟨h1, h2⟩ <;>
      rcases h5 with h | h | h | h | h <;> omega

theorem diagonal_depth_bounded_witness :
    (0 ≤ goDiv 29 5 ∧ goDiv 29 5 ≤ 5) ∧
    (leftDiagonal 29 35 = true →
      (0 ≤ leftDiagDepth 29 35 ∧ leftDiagDepth 29 35 ≤ 4) ∧
      (0 ≤ leftDiagDepth 29 35 + goDiv 29 5 ∧
        leftDiagDepth 29 35 + goDiv 29 5 ≤ 4 + 5)) ∧
    (rightDiagonal 29 35 = true →
      (0 ≤ rightDiagDepth 29 35 ∧ rightDiagDepth 29 35 ≤ 4) ∧
      (0 ≤ rightDiagDepth 29 35 + goDiv 29 5 ∧
        rightDiagDepth 29 35 + goDiv 29 5 ≤ 4 + 5)) :=
  diagonal_depth_bounded 29 35 (by decide)

/-! ## Finale rows -/

/-- A step of the walk that does not panic moves the cursor by `Cursor.next`,
whatever it does to the grid. -/
theorem spiralStep_cursor (i : Int) (g : Grid) (c : Cursor) (r : Grid × Cursor)
    (h : spiralStep i g c = some r) : r.2 = c.next := by
  unfold spiralStep at h
  split_ifs at h
  · cases hs : stamp i with
    | none => rw [hs] at h; exact Option.noConfusion h
    | some v =>
        rw [hs, Option.some_bind] at h
        cases hg : gridSet g (c.y + goDiv size 2) (c.x + goDiv size 2) v with
        | none => rw [hg] at h; exact Option.noConfusion h
        | some g2 =>
            rw [hg, Option.map_some'] at h
            rw [← Option.some.inj h]
  · rw [← Option.some.inj h]

/-- C17 (the checkerboard repeats a colour downwards): for `i` in `[0, 14)` and
`j` in `[0, 50)` with `i + j` odd, the cell `(i, j)` and the cell `(i+1, j)` below
it are both printed with palette index `(i+1) mod 8`; and for any parity the cells
`(i, j)` and `(i, j+1)` are printed with different palette indices, `i mod 8` for
one and `(i+1) mod 8` for the other. -/
theorem checkerboard_vertical_repeat (i j : Int) (hi : 0 ≤ i ∧ i < 14)
    (hj : 0 ≤ j ∧ j < 50) :
    ((i + j) % 2 = 1 →
      checkerCell i j = Piece.tinted ((i + 1) % 8) "11" ∧
      checkerCell (i + 1) j = Piece.tinted ((i + 1) % 8) "11") ∧
    (∃ a b, checkerCell i j = Piece.tinted a "11" ∧
      checkerCell i (j + 1) = Piece.tinted b "11" ∧ a ≠ b ∧
      ((a = i % 8 ∧ b = (i + 1) % 8) ∨ (a = (i + 1) % 8 ∧ b = i % 8))) ∧
    checkerCell i j ≠ checkerCell i (j + 1) := by
  have m2 : ∀ a : Int, 0 ≤ a → goMod a 2 = a % 2 := fun a ha =>
    goMod_of_nonneg a 2 ha (by decide)
  have m8 : ∀ a : Int, 0 ≤ a → goMod a lenColors = a % 8 := fun a ha => by
    rw [lenColors_eq]
    exact goMod_of_nonneg a 8 ha (by decide)
  have hdiff : i % 8 ≠ (i + 1) % 8 := by omega
  have hex : ∃ a b, checkerCell i j = Piece.tinted a "11" ∧
      checkerCell i (j + 1) = Piece.tinted b "11" ∧ a ≠ b ∧
      ((a = i % 8 ∧ b = (i + 1) % 8) ∨ (a = (i + 1) % 8 ∧ b = i % 8)) := by
    unfold checkerCell
    rw [m2 (i + j) (by omega), m2 (i + (j + 1)) (by omega), m8 i hi.1, m8 (i + 1) (by omega)]
    by_cases hp : (i + j) % 2 = 0
    · rw [if_pos hp, if_neg (by omega)]
      exact ⟨_, _, rfl, rfl, hdiff, Or.inl ⟨rfl, rfl⟩⟩
    · rw [if_neg hp, if_pos (by omega)]
      exact ⟨_, _, rfl, rfl, fun h => hdiff h.symm, Or.inr ⟨rfl, rfl⟩⟩
  refine ⟨?_, hex, ?_⟩
  · intro hodd
    unfold checkerCell
    rw [m2 (i + j) (by omega), m2 (i + 1 + j) (by omega), m8 (i + 1) (by omega),
      if_neg (by omega), if_pos (by omega)]
    exact ⟨rfl, rfl⟩
  · obtain ⟨a, b, ha, hb, hab, -⟩ := hex
    rw [ha, hb]
    intro h
    exact hab (Piece.tinted.inj h).1

theorem checkerboard_vertical_repeat_witness :
    (((3 : Int) + 4) % 2 = 1 →
      checkerCell 3 4 = Piece.tinted ((3 + 1) % 8) "11" ∧
      checkerCell (3 + 1) 4 = Piece.tinted ((3 + 1) % 8) "11") ∧
    (∃ a b, checkerCell 3 4 = Piece.tinted a "11" ∧
      checkerCell 3 (4 + 1) = Piece.tinted b "11" ∧ a ≠ b ∧
      ((a = 3 % 8 ∧ b = (3 + 1) % 8) ∨ (a = (3 + 1) % 8 ∧ b = 3 % 8))) ∧
    checkerCell 3 4 ≠ checkerCell 3 (4 + 1) :=
  checkerboard_vertical_repeat 3 4 (by decide) (by decide)

end MPattern
